import Mathlib

/-!
# Verification of the PokeWonder monitor core (src/check_stock.py)

A shallow embedding of the pure core of `check_stock.py`: the identity key
function (`stable_key`, a truncated SHA-256 over the joined parts), the
signal classifiers (`detect_queue`, `detect_block`, `text_has_keywords`,
`infer_in_stock`, `product_kind`, `parse_wait_time_seconds`), and the two
stateful alerting passes (`queue_alerts`, `scan_and_alert_intel`) together
with the state loading fallback (`load_state`).

Modelling conventions:
* Python strings are Lean `String`s; `.lower()` / `.strip()` / `\d` / `\w`
  are modelled over the ASCII range (all hint lists, keywords and tokens of
  interest are ASCII).
* The single mutable `state` dict is split into two maps: the 16-hex-char
  `stable_key` entries (queue status / wait thresholds / re-alert clocks)
  and the nested dict under the literal key `"items"`.  The split is sound
  because every `stable_key` output has length 16 (`stable_key_length`
  below) while `"items"` has length 5, so the key spaces cannot collide.
* Timestamps are `Int` (Python `int(time.time())`).  The float comparison
  `wait_s / 3600.0 <= th` is modelled by the exact comparison
  `wait_s ≤ th * 3600`; for the concrete whole-second wait times appearing
  in the claims the two agree.
* Telegram sends are modelled as an emitted list of `Event`s; message
  wording is presentation and not modelled beyond the event kind.
* Module-level configuration read from the environment (`KEYWORDS`) is
  passed as an explicit parameter; the default keyword list is
  `DEFAULT_KEYWORDS` lower-cased, exactly as in the source.
-/

/-! ## Generic string helpers (Python `in`, `.lower()`, `.strip()`) -/

/-- `startsWithL n h`: the char list `n` starts the char list `h`. -/
def startsWithL : List Char → List Char → Bool
  | [], _ => true
  | _ :: _, [] => false
  | a :: as, b :: bs => a == b && startsWithL as bs

/-- `hasSubList n h`: `n` occurs as a contiguous sublist of `h`
(Python `n in h` on strings). -/
def hasSubList (n : List Char) : List Char → Bool
  | [] => startsWithL n []
  | c :: t => startsWithL n (c :: t) || hasSubList n t

/-- Python `needle in hay` substring test. -/
def strIn (needle hay : String) : Bool :=
  hasSubList needle.toList hay.toList

/-- Python `str.lower()`, ASCII model. -/
def lowerStr (s : String) : String :=
  String.mk (s.toList.map Char.toLower)

/-- Python `str.strip()`: drop leading and trailing whitespace. -/
def stripStr (s : String) : String :=
  String.mk (((s.toList.dropWhile Char.isWhitespace).reverse.dropWhile
    Char.isWhitespace).reverse)

/-- Python slice `s[:n]` (by characters). -/
def takeStr (s : String) (n : Nat) : String :=
  String.mk (s.toList.take n)

/-! ## SHA-256 (as used by `stable_key`), over `Nat` with explicit
`% 2^32` wrap-around -/

def M32 : Nat := 4294967296

/-- 32-bit right rotation. -/
def ror32 (x n : Nat) : Nat :=
  ((x >>> n) ||| ((x % (2 ^ n)) <<< (32 - n))) % M32

def shaCh (x y z : Nat) : Nat := (x &&& y) ^^^ ((x ^^^ 4294967295) &&& z)

def shaMaj (x y z : Nat) : Nat := (x &&& y) ^^^ (x &&& z) ^^^ (y &&& z)

def bigSigma0 (x : Nat) : Nat := (ror32 x 2) ^^^ (ror32 x 13) ^^^ (ror32 x 22)

def bigSigma1 (x : Nat) : Nat := (ror32 x 6) ^^^ (ror32 x 11) ^^^ (ror32 x 25)

def smallSigma0 (x : Nat) : Nat := (ror32 x 7) ^^^ (ror32 x 18) ^^^ (x >>> 3)

def smallSigma1 (x : Nat) : Nat := (ror32 x 17) ^^^ (ror32 x 19) ^^^ (x >>> 10)

/-- The 64 SHA-256 round constants (fractional parts of the cube roots of
the first 64 primes), written in decimal. -/
def sha256K : List Nat :=
  [1116352408, 1899447441, 3049323471, 3921009573, 961987163, 1508970993,
   2453635748, 2870763221, 3624381080, 310598401, 607225278, 1426881987,
   1925078388, 2162078206, 2614888103, 3248222580, 3835390401, 4022224774,
   264347078, 604807628, 770255983, 1249150122, 1555081692, 1996064986,
   2554220882, 2821834349, 2952996808, 3210313671, 3336571891, 3584528711,
   113926993, 338241895, 666307205, 773529912, 1294757372, 1396182291,
   1695183700, 1986661051, 2177026350, 2456956037, 2730485921, 2820302411,
   3259730800, 3345764771, 3516065817, 3600352804, 4094571909, 275423344,
   430227734, 506948616, 659060556, 883997877, 958139571, 1322822218,
   1537002063, 1747873779, 1955562222, 2024104815, 2227730452, 2361852424,
   2428436474, 2756734187, 3204031479, 3329325298]

/-- The 8 initial SHA-256 state words, in decimal. -/
def sha256H0 : List Nat :=
  [1779033703, 3144134277, 1013904242, 2773480762,
   1359893119, 2600822924, 528734635, 1541459225]

/-- `n` as `w` big-endian bytes. -/
def natToBytesBE (w n : Nat) : List Nat :=
  match w with
  | 0 => []
  | w + 1 => natToBytesBE w (n / 256) ++ [n % 256]

/-- SHA-256 padding: `0x80`, zeros to 56 mod 64, then the 64-bit
big-endian bit length. -/
def shaPad (msg : List Nat) : List Nat :=
  let L := msg.length
  let k := (L + 1) % 64
  let z := (56 + 64 - k) % 64
  msg ++ [0x80] ++ List.replicate z 0 ++ natToBytesBE 8 ((8 * L) % (2 ^ 64))

/-- Big-endian 4-byte groups to 32-bit words. -/
def bytesToWords : List Nat → List Nat
  | b0 :: b1 :: b2 :: b3 :: rest =>
      (((b0 * 256 + b1) * 256 + b2) * 256 + b3) :: bytesToWords rest
  | _ => []

/-- Split into 16-word blocks (the padded message is always a whole number
of blocks). -/
def chunks16 : List Nat → List (List Nat)
  | b0 :: b1 :: b2 :: b3 :: b4 :: b5 :: b6 :: b7 ::
    b8 :: b9 :: b10 :: b11 :: b12 :: b13 :: b14 :: b15 :: rest =>
      [b0, b1, b2, b3, b4, b5, b6, b7, b8, b9, b10, b11, b12, b13, b14, b15] ::
        chunks16 rest
  | _ => []

/-- Message-schedule extension: append `n` more words. -/
def extendW (w : List Nat) : Nat → List Nat
  | 0 => w
  | n + 1 =>
      let i := w.length
      let nw := (smallSigma1 (w.getD (i - 2) 0) + w.getD (i - 7) 0 +
                 smallSigma0 (w.getD (i - 15) 0) + w.getD (i - 16) 0) % M32
      extendW (w ++ [nw]) n

/-- One compression round. -/
def shaRound (st : List Nat) (kw : Nat × Nat) : List Nat :=
  match st with
  | [a, b, c, d, e, f, g, h] =>
      let t1 := (h + bigSigma1 e + shaCh e f g + kw.1 + kw.2) % M32
      let t2 := (bigSigma0 a + shaMaj a b c) % M32
      [(t1 + t2) % M32, a, b, c, (d + t1) % M32, e, f, g]
  | st => st

/-- Process one 16-word block. -/
def shaBlock (hs : List Nat) (block : List Nat) : List Nat :=
  let w := extendW block 48
  let fin := (sha256K.zip w).foldl shaRound hs
  (hs.zip fin).map (fun p => (p.1 + p.2) % M32)

/-- SHA-256 of a byte list, as the list of the eight 32-bit digest words. -/
def sha256Words (msg : List Nat) : List Nat :=
  (chunks16 (bytesToWords (shaPad msg))).foldl shaBlock sha256H0

def hexChar (n : Nat) : Char :=
  if n < 10 then Char.ofNat (48 + n) else Char.ofNat (87 + n)

/-- A 32-bit word as 8 lowercase hex chars. -/
def toHex8 (x : Nat) : List Char :=
  (List.range 8).map (fun i => hexChar ((x >>> (28 - 4 * i)) % 16))

/-- Lowercase hex digest chars (64 of them) of a byte list. -/
def sha256HexChars (msg : List Nat) : List Char :=
  (sha256Words msg).foldr (fun w acc => toHex8 w ++ acc) []

/-- UTF-8 encoding of one code point. -/
def utf8EncodeChar (c : Nat) : List Nat :=
  if c < 0x80 then [c]
  else if c < 0x800 then
    [0xc0 ||| (c >>> 6), 0x80 ||| (c &&& 0x3f)]
  else if c < 0x10000 then
    [0xe0 ||| (c >>> 12), 0x80 ||| ((c >>> 6) &&& 0x3f), 0x80 ||| (c &&& 0x3f)]
  else
    [0xf0 ||| (c >>> 18), 0x80 ||| ((c >>> 12) &&& 0x3f),
     0x80 ||| ((c >>> 6) &&& 0x3f), 0x80 ||| (c &&& 0x3f)]

/-- Python `s.encode("utf-8")`. -/
def utf8Bytes (s : String) : List Nat :=
  s.toList.foldr (fun c acc => utf8EncodeChar c.toNat ++ acc) []

/-- `stable_key(*parts)` from check_stock.py line 91-93:
`sha256("|".join(parts)).hexdigest()[:16]`.  No URL normalization of any
kind is performed on the parts. -/
def stable_key (parts : List String) : String :=
  String.mk ((sha256HexChars (utf8Bytes (String.intercalate "|" parts))).take 16)

/-! ## Configuration constants (check_stock.py lines 29-83) -/

def DEFAULT_KEYWORDS : List String :=
  ["elite trainer box", "etb", "booster box", "booster display", "booster bundle",
   "booster pack", "build & battle", "collection box", "premium collection",
   "trainer toolkit"]

/-- The module-level `KEYWORDS` when no `KEYWORDS` environment override is
set: the defaults, lower-cased. -/
def KEYWORDS : List String := DEFAULT_KEYWORDS.map lowerStr

def ERROR_RE_ALERT_SECONDS : Int := 30 * 60

def QUEUE_RE_ALERT_SECONDS : Int := 60 * 60

def RESTOCK_COOLDOWN_SECONDS : Int := 5 * 60

def NEW_ITEM_COOLDOWN_SECONDS : Int := 10 * 60

def WAITTIME_THRESHOLDS_HOURS : List Nat := [6, 3, 1]

def QUEUE_TEXT_HINTS : List String :=
  ["virtual queue", "you're in the virtual queue", "estimated wait time",
   "keep this window open", "do not refresh", "lose your place in line",
   "high volume of requests", "waiting room"]

def QUEUE_URL_HINTS : List String := ["queue-it", "virtual-queue", "queue", "waiting", "line"]

def BLOCK_TEXT_HINTS : List String :=
  ["access denied", "are you a robot", "unusual traffic", "captcha",
   "verify you are human", "temporarily unavailable", "service unavailable",
   "request blocked"]

/-! ## Signal classifiers (check_stock.py lines 130-148, 241-279) -/

/-- `detect_queue` (lines 130-137): URL hints first, then body-text hints. -/
def detect_queue (final_url body_text : String) : Bool × String :=
  let u := lowerStr final_url
  let t := lowerStr body_text
  if QUEUE_URL_HINTS.any (fun h => strIn h u) then (true, "URL matched queue hints")
  else if QUEUE_TEXT_HINTS.any (fun h => strIn h t) then (true, "Text matched queue hints")
  else (false, "No queue hints")

/-- `detect_block` (lines 139-144). -/
def detect_block (body_text : String) : Bool × String :=
  let t := lowerStr body_text
  match BLOCK_TEXT_HINTS.find? (fun h => strIn h t) with
  | some h => (true, "Block hint: " ++ h)
  | none => (false, "No block hints")

/-- `text_has_keywords` (lines 146-148); the module-level `KEYWORDS` list is
passed explicitly. -/
def text_has_keywords (keywords : List String) (text : String) : Bool :=
  let tt := lowerStr text
  keywords.any (fun k => strIn k tt)

/-! ## Regex token matching for `parse_wait_time_seconds` and the
`\b...\b` searches; `\d`/`\w` are modelled over ASCII -/

def isWordCh (c : Char) : Bool := c.isAlphanum || c == '_'

def digitAt (cs : List Char) (i : Nat) : Option Nat :=
  match cs[i]? with
  | some c => if c.isDigit then some (c.toNat - 48) else none
  | none => none

def twoDigitsAt (cs : List Char) (i : Nat) : Option Nat :=
  match digitAt cs i, digitAt cs (i + 1) with
  | some a, some b => some (10 * a + b)
  | _, _ => none

def isColonAt (cs : List Char) (i : Nat) : Bool := cs[i]? == some ':'

def wordChAt (cs : List Char) (i : Nat) : Bool :=
  match cs[i]? with
  | some c => isWordCh c
  | none => false

/-- `\b` before a word character at position `i`. -/
def boundaryBefore (cs : List Char) (i : Nat) : Bool :=
  i == 0 || !wordChAt cs (i - 1)

/-- `\b` after a word character ending just before position `j`. -/
def boundaryAfter (cs : List Char) (j : Nat) : Bool := !wordChAt cs j

/-- Trailing `(\d{2})\b` at position `p`. -/
def tailSS (cs : List Char) (p : Nat) : Option Nat :=
  match twoDigitsAt cs p with
  | some ss => if boundaryAfter cs (p + 2) then some ss else none
  | none => none

/-- Trailing `(\d{2}):(\d{2})\b` at position `p`. -/
def tailMMSS (cs : List Char) (p : Nat) : Option (Nat × Nat) :=
  match twoDigitsAt cs p with
  | some mm =>
      if isColonAt cs (p + 2) then (tailSS cs (p + 3)).map (fun ss => (mm, ss))
      else none
  | none => none

/-- Match of `\b(\d{1,2}):(\d{2}):(\d{2})\b` anchored at position `i`,
with the greedy two-digit hour tried before the one-digit fallback,
exactly as the backtracking regex engine does. -/
def matchHMSAt (cs : List Char) (i : Nat) : Option (Nat × Nat × Nat) :=
  if !boundaryBefore cs i then none
  else
    let try2 :=
      match twoDigitsAt cs i with
      | some h =>
          if isColonAt cs (i + 2) then (tailMMSS cs (i + 3)).map (fun (p : Nat × Nat) => (h, p.1, p.2))
          else none
      | none => none
    match try2 with
    | some r => some r
    | none =>
      match digitAt cs i with
      | some h =>
          if isColonAt cs (i + 1) then (tailMMSS cs (i + 2)).map (fun (p : Nat × Nat) => (h, p.1, p.2))
          else none
      | none => none

/-- Match of `\b(\d{1,2}):(\d{2})\b` anchored at position `i`. -/
def matchMSAt (cs : List Char) (i : Nat) : Option (Nat × Nat) :=
  if !boundaryBefore cs i then none
  else
    let try2 :=
      match twoDigitsAt cs i with
      | some mm =>
          if isColonAt cs (i + 2) then (tailSS cs (i + 3)).map (fun ss => (mm, ss))
          else none
      | none => none
    match try2 with
    | some r => some r
    | none =>
      match digitAt cs i with
      | some mm =>
          if isColonAt cs (i + 1) then (tailSS cs (i + 2)).map (fun ss => (mm, ss))
          else none
      | none => none

/-- `re.search` position scan: first position (from `i`, up to `n` tries)
where the anchored matcher succeeds. -/
def scanFirst (f : Nat → Option α) : Nat → Nat → Option α
  | _, 0 => none
  | i, n + 1 =>
      match f i with
      | some r => some r
      | none => scanFirst f (i + 1) n

/-- Python `" ".join(text.split())`: collapse whitespace runs, trim ends. -/
def normalizeWS (s : String) : List Char :=
  let ws := (s.toList.foldr
    (fun c acc =>
      if c.isWhitespace then [] :: acc
      else match acc with
        | [] => [[c]]
        | w :: rest => (c :: w) :: rest)
    []).filter (fun w => !w.isEmpty)
  List.intercalate [' '] ws

/-- `parse_wait_time_seconds` (lines 118-128): first `H:MM:SS`/`HH:MM:SS`
token, else first `MM:SS` token read as minutes:seconds, else none. -/
def parse_wait_time_seconds (text : String) : Option Nat :=
  let t := normalizeWS text
  match scanFirst (matchHMSAt t) 0 (t.length + 1) with
  | some (h, mm, ss) => some (h * 3600 + mm * 60 + ss)
  | none =>
    match scanFirst (matchMSAt t) 0 (t.length + 1) with
    | some (mm, ss) => some (mm * 60 + ss)
    | none => none

/-- `\bphrase\b` search (used for `\badd to\b` and `\betb\b`); the phrase
starts and ends with word characters. -/
def matchPhraseAt (w cs : List Char) (i : Nat) : Bool :=
  boundaryBefore cs i && startsWithL w (cs.drop i) && boundaryAfter cs (i + w.length)

def hasPhraseToken (w t : String) : Bool :=
  let cs := t.toList
  (List.range (cs.length + 1)).any (fun i => matchPhraseAt w.toList cs i)

/-- `infer_in_stock` (lines 241-263): out-of-stock hints beat add-to-cart
hints; `\badd to\b` alone is also a strong in-stock signal. -/
def infer_in_stock (text_blob : String) : Option Bool :=
  let t := lowerStr text_blob
  if strIn "out of stock" t || strIn "sold out" t || strIn "unavailable" t then some false
  else if strIn "add to cart" t || strIn "add to basket" t then some true
  else if hasPhraseToken "add to" t then some true
  else none

/-- `product_kind` (lines 265-279). -/
def product_kind (text_blob : String) : String :=
  let t := lowerStr text_blob
  if strIn "elite trainer box" t || hasPhraseToken "etb" t then "ETB"
  else if strIn "booster box" t || strIn "booster display" t then "Booster Box"
  else if strIn "booster bundle" t then "Booster Bundle"
  else if strIn "booster pack" t || strIn "booster" t then "Booster"
  else if strIn "build & battle" t then "Build & Battle"
  else if strIn "collection" t then "Collection"
  else "TCG Item"

/-! ## State model, alert events, and the two alerting passes -/

/-- One record of the persisted `state` dict under a `stable_key` key.
All fields are optional, mirroring the Python dicts that acquire fields
incrementally (`{}` is the empty dict). -/
structure Entry where
  status : Option String := none
  final_url : Option String := none
  last_seen_ts : Option Int := none
  last_alert_ts : Option Int := none
  passed : Option (List String) := none
deriving DecidableEq

/-- The `stable_key`-keyed part of the state dict. -/
def EMap : Type := String → Option Entry

/-- One record of `state["items"]` (lines 374-383). -/
structure ItemRec where
  sig : String
  title : String
  kind : String
  stock : Option Bool
  last_seen_ts : Int
  source_page : String
  source_name : String
  last_alert_ts : Int
deriving DecidableEq

/-- The nested dict `state["items"]`, keyed by raw item URL. -/
def IMap : Type := String → Option ItemRec

/-- An extracted product-like item handed to the scanner
(`{url, linkText, containerText}`). -/
structure XItem where
  url : String
  linkText : String
  containerText : String
deriving DecidableEq

/-- One alert (a `tg_send` call), identified by its kind; the message
wording is presentation and not modelled. -/
inductive Event where
  | queueDetected
  | blockDetected
  | queueCleared
  | waitThreshold (th : Nat)
  | queueStillActive
  | newItem (url : String)
  | restock (url : String)
  | buyableNow (url : String)
deriving DecidableEq

/-- Dict write `m[k] = e`. -/
def setE (m : EMap) (k : String) (e : Entry) : EMap :=
  fun k' => if k' = k then some e else m k'

def setI (m : IMap) (k : String) (r : ItemRec) : IMap :=
  fun k' => if k' = k then some r else m k'

/-- `state.get(key, {}).get("status", "UNKNOWN")`. -/
def getStatus (m : EMap) (k : String) : String :=
  ((m k).bind Entry.status).getD "UNKNOWN"

/-- `int(state.get(key, {}).get("last_alert_ts", 0) or 0)`. -/
def getLastAlert (m : EMap) (k : String) : Int :=
  ((m k).bind Entry.last_alert_ts).getD 0

/-- `should_realert` (lines 114-116). -/
def should_realert (m : EMap) (key : String) (now_ts window_seconds : Int) : Bool :=
  now_ts - getLastAlert m key > window_seconds

/-- `state[key]["last_alert_ts"] = now_ts` (the key is always present when
this runs; absent defaults to the empty dict as `dict.setdefault` would). -/
def setLastAlert (m : EMap) (k : String) (now : Int) : EMap :=
  setE m k { (m k).getD {} with last_alert_ts := some now }

/-- Lexicographic code-point order on char lists (Python `str` `<`). -/
def lexLt : List Char → List Char → Bool
  | [], [] => false
  | [], _ :: _ => true
  | _ :: _, [] => false
  | a :: as, b :: bs => if a < b then true else if b < a then false else lexLt as bs

def strLtB (a b : String) : Bool := lexLt a.toList b.toList

/-- Ascending insertion keeping Python `sorted` order on strings. -/
def insertSorted (x : String) : List String → List String
  | [] => [x]
  | y :: ys => if strLtB y x then y :: insertSorted x ys else x :: y :: ys

/-- Python `sorted(list(...))` on strings. -/
def sortStrings (l : List String) : List String :=
  l.foldr insertSorted []

/-- The `for th in WAITTIME_THRESHOLDS_HOURS` loop (lines 323-328):
`hours <= th` is the exact comparison `wait_s ≤ th * 3600`; `passed` is the
duplicate-free list of already-crossed threshold names. -/
def waitFold (wait_s : Nat) : List String → List Nat → List Event × List String
  | passed, [] => ([], passed)
  | passed, th :: rest =>
      if wait_s ≤ th * 3600 ∧ (toString th) ∉ passed then
        let r := waitFold wait_s (passed ++ [toString th]) rest
        (Event.waitThreshold th :: r.1, r.2)
      else waitFold wait_s passed rest

/-- Line 297: `status = "QUEUE" if q else ("BLOCK" if b else "OK")`. -/
def statusOf (final_url body_text : String) : String :=
  if (detect_queue final_url body_text).1 then "QUEUE"
  else if (detect_block body_text).1 then "BLOCK" else "OK"

/-- The `if status != prev` transition block of `queue_alerts`
(lines 302-314). -/
def qa_transition (key : String) (prev status : String) (m1 : EMap) (now_ts : Int) :
    List Event × EMap :=
  if status ≠ prev then
    if status = "QUEUE" then ([Event.queueDetected], setLastAlert m1 key now_ts)
    else if status = "BLOCK" then
      if should_realert m1 key now_ts ERROR_RE_ALERT_SECONDS then
        ([Event.blockDetected], setLastAlert m1 key now_ts)
      else ([], m1)
    else if status = "OK" ∧ prev = "QUEUE" then
      ([Event.queueCleared], setLastAlert m1 key now_ts)
    else ([], m1)
  else ([], m1)

/-- The wait-time threshold block of `queue_alerts` (lines 317-329),
run only while the status is QUEUE. -/
def qa_wait (th_key : String) (m2 : EMap) (now_ts : Int) (body_text : String) :
    List Event × EMap :=
  match parse_wait_time_seconds body_text with
  | some wait_s =>
      let passed := ((m2 th_key).bind Entry.passed).getD []
      let r := waitFold wait_s passed WAITTIME_THRESHOLDS_HOURS
      (r.1, setE m2 th_key { passed := some (sortStrings r.2), last_seen_ts := some now_ts })
  | none => ([], m2)

/-- The hourly queue-still-active re-alert block of `queue_alerts`
(lines 331-335). -/
def qa_re (realert_key : String) (m3 : EMap) (now_ts : Int) : List Event × EMap :=
  if should_realert m3 realert_key now_ts QUEUE_RE_ALERT_SECONDS then
    ([Event.queueStillActive], setE m3 realert_key { last_alert_ts := some now_ts })
  else ([], m3)

/-- The `state.setdefault(key, {})` plus `state[key].update({...})` of
lines 299-300. -/
def qa_m1 (key : String) (m0 : EMap) (now_ts : Int) (final_url status : String) : EMap :=
  setE m0 key
    { (m0 key).getD {} with
      status := some status, final_url := some final_url, last_seen_ts := some now_ts }

/-- `queue_alerts` (lines 291-335) with the three `stable_key` values
passed as parameters (they are pure functions of `url`, hoisted so that
proofs can name them); `queue_alerts` below instantiates them exactly as
the source does. -/
def queue_alerts_keyed (key th_key realert_key : String) (m0 : EMap) (now_ts : Int)
    (final_url body_text : String) : List Event × EMap :=
  let prev := getStatus m0 key
  let status := statusOf final_url body_text
  let m1 := qa_m1 key m0 now_ts final_url status
  let s1 := qa_transition key prev status m1 now_ts
  if status = "QUEUE" then
    let s2 := qa_wait th_key s1.2 now_ts body_text
    let s3 := qa_re realert_key s2.2 now_ts
    (s1.1 ++ s2.1 ++ s3.1, s3.2)
  else (s1.1, s1.2)

/-- `queue_alerts` (lines 291-335). -/
def queue_alerts (m : EMap) (now_ts : Int) (name url final_url body_text : String) :
    List Event × EMap :=
  queue_alerts_keyed (stable_key ["queue", url]) (stable_key ["wait_th", url])
    (stable_key ["queue_re", url]) m now_ts final_url body_text

/-- Processing of a single extracted item inside the
`for it in extracted_items` loop of `scan_and_alert_intel`
(lines 349-434). -/
def scan_item (keywords : List String) (now_ts : Int) (page_name page_url : String)
    (acc : List Event × IMap) (it : XItem) : List Event × IMap :=
  let evs := acc.1
  let items_state := acc.2
  let url := stripStr it.url
  let link_text := stripStr it.linkText
  let container_text := stripStr it.containerText
  if url = "" then (evs, items_state)
  else
    let blob := link_text ++ "\n" ++ container_text
    if !text_has_keywords keywords blob then (evs, items_state)
    else
      let kind := product_kind blob
      let stock_guess := infer_in_stock blob
      let sig := stable_key [takeStr (lowerStr link_text) 200, takeStr (lowerStr container_text) 400]
      let prev := items_state url
      let prev_stock : Option Bool := prev.bind ItemRec.stock
      let first_seen := prev.isNone
      let rec0 : ItemRec :=
        { sig := sig, title := takeStr link_text 200, kind := kind, stock := stock_guess,
          last_seen_ts := now_ts, source_page := page_url, source_name := page_name,
          last_alert_ts := (prev.map ItemRec.last_alert_ts).getD 0 }
      let st1 := setI items_state url rec0
      if first_seen then
        if now_ts - rec0.last_alert_ts > NEW_ITEM_COOLDOWN_SECONDS then
          (evs ++ [Event.newItem url], setI st1 url { rec0 with last_alert_ts := now_ts })
        else (evs, st1)
      else if prev_stock == some false && stock_guess == some true then
        if now_ts - rec0.last_alert_ts > RESTOCK_COOLDOWN_SECONDS then
          (evs ++ [Event.restock url], setI st1 url { rec0 with last_alert_ts := now_ts })
        else (evs, st1)
      else if stock_guess == some true && prev_stock != some true then
        if now_ts - rec0.last_alert_ts > RESTOCK_COOLDOWN_SECONDS then
          (evs ++ [Event.buyableNow url], setI st1 url { rec0 with last_alert_ts := now_ts })
        else (evs, st1)
      else (evs, st1)

/-- `scan_and_alert_intel` (lines 337-434), acting on the `state["items"]`
sub-dict. -/
def scan_and_alert_intel (keywords : List String) (items_state : IMap) (now_ts : Int)
    (page_name page_url : String) (extracted_items : List XItem) : List Event × IMap :=
  extracted_items.foldl (scan_item keywords now_ts page_name page_url) ([], items_state)

/-- The whole persisted state: `stable_key` entries plus `state["items"]`.
The two key spaces are disjoint because `stable_key` outputs have
length 16 while the literal key has length 5. -/
structure St where
  entries : EMap
  items : IMap

def emptyState : St := ⟨fun _ => none, fun _ => none⟩

/-- Per-target processing of one cycle (main, lines 449-460): queue
intelligence, then the item scanner. -/
def process_target (keywords : List String) (s : St) (now_ts : Int)
    (name url final_url body_text : String) (items : List XItem) : List Event × St :=
  let r1 := queue_alerts s.entries now_ts name url final_url body_text
  let r2 := scan_and_alert_intel keywords s.items now_ts name url items
  (r1.1 ++ r2.1, ⟨r1.2, r2.2⟩)

/-- `load_state` (lines 95-100): the fallible `open` + `json.load` is
modelled as one `Except` input; any failure (missing file, unreadable
file, corrupt JSON) yields the empty store instead of propagating. -/
def load_state (readResult : Except String St) : St :=
  match readResult with
  | Except.ok st => st
  | Except.error _ => emptyState

/-! ## Event filters and concrete scenario data used by the claim
theorems below -/

/-- The queue/block transition alert kinds of §4.4. -/
def isQueueTransition : Event → Bool
  | Event.queueDetected => true
  | Event.blockDetected => true
  | Event.queueCleared => true
  | _ => false

def isWaitEvent : Event → Bool
  | Event.waitThreshold _ => true
  | _ => false

/-- Per-cycle emitted events of a sequence of `(now, body_text)`
observations. -/
def runEvents (m : EMap) : List (Int × String) → List (List Event)
  | [] => []
  | (t, body) :: rest =>
      (queue_alerts m t "SRC" "u" "u" body).1 ::
        runEvents (queue_alerts m t "SRC" "u" "u" body).2 rest

/-- State after a sequence of `(now, body_text)` observations. -/
def runState (m : EMap) : List (Int × String) → EMap
  | [] => m
  | (t, body) :: rest => runState (queue_alerts m t "SRC" "u" "u" body).2 rest

def obsC4close : List (Int × String) :=
  [(1000, ""), (1060, "waiting room"), (1120, "a captcha"), (1180, "")]

def obsC4far : List (Int × String) :=
  [(10000, ""), (20000, "waiting room"), (30000, "a captcha"), (40000, "")]

def obsC6 : List (Int × String) :=
  [(10000, "waiting room 7:00:00"), (11000, "waiting room 4:00:00"),
   (12000, "waiting room 2:00:00"), (13000, "waiting room 0:30:00"),
   (14000, "waiting room 5:00:00")]

/-- State with a queue record for target `"u"` whose shared clock was last
set at `t = 1000` (as a QUEUE alert at that time would leave it). -/
def mC3w : EMap := fun k =>
  if k = "5262d7453dae124a" then
    some { status := some "QUEUE", final_url := some "u", last_seen_ts := some (1000 : Int),
           last_alert_ts := some (1000 : Int) }
  else none

/-- Item state for the C5 counterexample: the item was out of stock and its
shared per-item alert clock was last set 60 s ago. -/
def imC5cex : IMap := fun k =>
  if k = "https://x/product/a" then
    some { sig := "", title := "", kind := "", stock := some false, last_seen_ts := 0,
           source_page := "", source_name := "", last_alert_ts := 940 }
  else none

/-- Item state for the C5 witness: out of stock, clock long expired. -/
def imC5w : IMap := fun k =>
  if k = "https://x/product/a" then
    some { sig := "", title := "", kind := "", stock := some false, last_seen_ts := 0,
           source_page := "", source_name := "", last_alert_ts := 0 }
  else none

/-! ## Theorems: shared concrete key digests (checked against the
SHA-256 implementation), helper lemmas, and the claim theorems. -/

theorem key_queue_u : stable_key ["queue", "u"] = "5262d7453dae124a" := by decide

theorem key_waitth_u : stable_key ["wait_th", "u"] = "09fcbc3cfff94d2b" := by decide

theorem key_queuere_u : stable_key ["queue_re", "u"] = "21ecc330d3a475d7" := by decide

theorem shaRound_length (st : List Nat) (kw : Nat × Nat) :
    (shaRound st kw).length = st.length := by
  unfold shaRound
  split
  · simp
  · rfl

theorem foldl_shaRound_length (l : List (Nat × Nat)) :
    ∀ st : List Nat, (l.foldl shaRound st).length = st.length := by
  induction l with
  | nil => intro st; rfl
  | cons a as ih =>
      intro st
      rw [List.foldl_cons, ih, shaRound_length]

theorem shaBlock_length (hs b : List Nat) : (shaBlock hs b).length = hs.length := by
  simp [shaBlock, foldl_shaRound_length]

theorem foldl_shaBlock_length (bs : List (List Nat)) :
    ∀ hs : List Nat, (bs.foldl shaBlock hs).length = hs.length := by
  induction bs with
  | nil => intro hs; rfl
  | cons a as ih =>
      intro hs
      rw [List.foldl_cons, ih, shaBlock_length]

theorem sha256Words_length (msg : List Nat) : (sha256Words msg).length = 8 := by
  unfold sha256Words
  rw [foldl_shaBlock_length]
  rfl

theorem sha256HexChars_length (msg : List Nat) : (sha256HexChars msg).length = 64 := by
  unfold sha256HexChars
  have h8 : ∀ l : List Nat, (l.foldr (fun w acc => toHex8 w ++ acc) []).length
      = 8 * l.length := by
    intro l
    induction l with
    | nil => rfl
    | cons a as ih =>
        have hx : (toHex8 a).length = 8 := by simp [toHex8]
        simp only [List.foldr_cons, List.length_append, List.length_cons, ih, hx]
        ring
  rw [h8, sha256Words_length]

/-- Every `stable_key` output has exactly 16 characters; in particular no
`stable_key` entry can collide with the literal 5-character dict key
`"items"`, which justifies splitting the state dict into the two maps of
`St`. -/
theorem stable_key_length (parts : List String) : (stable_key parts).length = 16 := by
  simp [stable_key, String.length, sha256HexChars_length]

theorem setE_same (m : EMap) (k : String) (e : Entry) : setE m k e k = some e := by
  simp [setE]

theorem setE_other (m : EMap) (k k' : String) (e : Entry) (h : k' ≠ k) :
    setE m k e k' = m k' := by
  simp [setE, h]

theorem getD_empty_status (o : Option Entry) : (o.getD {}).status = o.bind Entry.status := by
  cases o <;> rfl

theorem getD_empty_last_alert (o : Option Entry) :
    (o.getD {}).last_alert_ts = o.bind Entry.last_alert_ts := by
  cases o <;> rfl

theorem setLastAlert_other (m : EMap) (k k' : String) (now : Int) (h : k' ≠ k) :
    setLastAlert m k now k' = m k' := by
  simp [setLastAlert, setE, h]

theorem qa_m1_other (key : String) (m : EMap) (now : Int) (fu st : String) (k' : String)
    (h : k' ≠ key) : qa_m1 key m now fu st k' = m k' := by
  simp [qa_m1, setE, h]

theorem qa_m1_status (key : String) (m : EMap) (now : Int) (fu st : String) :
    (qa_m1 key m now fu st key).bind Entry.status = some st := by
  simp [qa_m1, setE_same]

theorem getLastAlert_qa_m1 (key : String) (m : EMap) (now : Int) (fu st : String) :
    getLastAlert (qa_m1 key m now fu st) key = getLastAlert m key := by
  simp [qa_m1, getLastAlert, setE_same, getD_empty_last_alert]

theorem qa_transition_other (key p s : String) (m : EMap) (now : Int) (k' : String)
    (h : k' ≠ key) : (qa_transition key p s m now).2 k' = m k' := by
  unfold qa_transition
  repeat' split
  all_goals simp [setLastAlert_other, h]

theorem qa_transition_status (key p s : String) (m : EMap) (now : Int) :
    ((qa_transition key p s m now).2 key).bind Entry.status = (m key).bind Entry.status := by
  unfold qa_transition
  repeat' split
  all_goals simp [setLastAlert, setE_same, getD_empty_status]

theorem qa_wait_other (th : String) (m : EMap) (now : Int) (b : String) (k' : String)
    (h : k' ≠ th) : (qa_wait th m now b).2 k' = m k' := by
  unfold qa_wait
  split
  · simp [setE_other, h]
  · rfl

theorem qa_re_other (re : String) (m : EMap) (now : Int) (k' : String)
    (h : k' ≠ re) : (qa_re re m now).2 k' = m k' := by
  unfold qa_re
  split
  · simp [setE_other, h]
  · rfl

theorem qa_stored_status (key th re : String) (m : EMap) (now : Int) (fu body : String)
    (h1 : th ≠ key) (h2 : re ≠ key) :
    getStatus (queue_alerts_keyed key th re m now fu body).2 key = statusOf fu body := by
  have h1' : key ≠ th := Ne.symm h1
  have h2' : key ≠ re := Ne.symm h2
  simp only [queue_alerts_keyed, getStatus]
  split
  · rw [qa_re_other _ _ _ _ h2', qa_wait_other _ _ _ _ _ h1', qa_transition_status, qa_m1_status]
    rfl
  · rw [qa_transition_status, qa_m1_status]
    rfl

theorem qa_transition_self (key st : String) (m : EMap) (now : Int) :
    qa_transition key st st m now = ([], m) := by
  unfold qa_transition
  simp

theorem mem_insertSorted (x y : String) (l : List String) :
    y ∈ insertSorted x l ↔ y = x ∨ y ∈ l := by
  induction l with
  | nil => simp [insertSorted]
  | cons a as ih =>
      unfold insertSorted
      split
      · simp only [List.mem_cons, ih]
        tauto
      · simp only [List.mem_cons]

theorem mem_sortStrings (x : String) (l : List String) :
    x ∈ sortStrings l ↔ x ∈ l := by
  induction l with
  | nil => simp [sortStrings]
  | cons a as ih =>
      simp only [sortStrings, List.foldr_cons] at *
      rw [mem_insertSorted, ih]
      simp

theorem waitFold_mono (w : Nat) (x : String) :
    ∀ (ths : List Nat) (p : List String), x ∈ p → x ∈ (waitFold w p ths).2
  | [], p, h => h
  | th :: rest, p, h => by
      unfold waitFold
      split
      · exact waitFold_mono w x rest _ (List.mem_append_left _ h)
      · exact waitFold_mono w x rest p h

theorem waitFold_crossed (w : Nat) :
    ∀ (ths : List Nat) (p : List String) (th : Nat), th ∈ ths → w ≤ th * 3600 →
      toString th ∈ (waitFold w p ths).2
  | [], _, _, h, _ => absurd h (List.not_mem_nil _)
  | t :: rest, p, th, h, hw => by
      rcases List.mem_cons.mp h with rfl | hmem
      · unfold waitFold
        split
        · exact waitFold_mono w _ rest _ (List.mem_append_right _ (List.mem_singleton.mpr rfl))
        · next hcond =>
            push_neg at hcond
            exact waitFold_mono w _ rest p (hcond hw)
      · unfold waitFold
        split
        · exact waitFold_crossed w rest _ th hmem hw
        · exact waitFold_crossed w rest p th hmem hw

theorem waitFold_no_events (w : Nat) :
    ∀ (ths : List Nat) (p : List String),
      (∀ th ∈ ths, w ≤ th * 3600 → toString th ∈ p) → (waitFold w p ths).1 = []
  | [], _, _ => rfl
  | t :: rest, p, h => by
      unfold waitFold
      split
      · next hcond =>
          exact absurd (h t (List.mem_cons_self t rest) hcond.1) hcond.2
      · exact waitFold_no_events w rest p
          (fun th hm hw => h th (List.mem_cons_of_mem _ hm) hw)

theorem qa_wait_events_of_prev (th : String) (m m' : EMap) (now now2 : Int) (body : String)
    (hsame : m' th = (qa_wait th m now body).2 th) :
    (qa_wait th m' now2 body).1 = [] := by
  cases hp : parse_wait_time_seconds body with
  | none => simp [qa_wait, hp]
  | some w =>
      have hth : m' th = some
          { passed := some (sortStrings
              (waitFold w (((m th).bind Entry.passed).getD []) WAITTIME_THRESHOLDS_HOURS).2),
            last_seen_ts := some now } := by
        rw [hsame]
        simp [qa_wait, hp, setE_same]
      simp only [qa_wait, hp, hth, Option.bind_some, Option.getD_some]
      apply waitFold_no_events
      intro t ht hw
      show toString t ∈ _
      dsimp only [Option.bind, Option.getD]
      rw [mem_sortStrings]
      exact waitFold_crossed w _ _ t ht hw

theorem qa_re_events_of_prev (re : String) (m m' : EMap) (now : Int)
    (hsame : m' re = (qa_re re m now).2 re) :
    (qa_re re m' now).1 = [] := by
  by_cases hf : should_realert m re now QUEUE_RE_ALERT_SECONDS = true
  · have hre : m' re = some { last_alert_ts := some now } := by
      rw [hsame]
      simp [qa_re, hf, setE_same]
    have hgate : should_realert m' re now QUEUE_RE_ALERT_SECONDS = false := by
      simp [should_realert, getLastAlert, hre, QUEUE_RE_ALERT_SECONDS]
    simp [qa_re, hgate]
  · have hre : m' re = m re := by
      rw [hsame]
      simp [qa_re, hf]
    have hf' : should_realert m re now QUEUE_RE_ALERT_SECONDS = false := by
      cases hsr : should_realert m re now QUEUE_RE_ALERT_SECONDS
      · rfl
      · exact absurd hsr hf
    have hla : getLastAlert m' re = getLastAlert m re := by
      simp [getLastAlert, hre]
    have hgate : should_realert m' re now QUEUE_RE_ALERT_SECONDS = false := by
      simpa only [should_realert, hla] using hf'
    simp [qa_re, hgate]

theorem qa_keyed_noTransition_events (key th re : String) (m : EMap) (now : Int)
    (fu body : String) (hprev : getStatus m key = statusOf fu body) :
    (queue_alerts_keyed key th re m now fu body).1 =
      if statusOf fu body = "QUEUE" then
        (qa_wait th (qa_m1 key m now fu (statusOf fu body)) now body).1 ++
        (qa_re re (qa_wait th (qa_m1 key m now fu (statusOf fu body)) now body).2 now).1
      else [] := by
  simp only [queue_alerts_keyed]
  rw [hprev, qa_transition_self]
  split
  · simp
  · rfl

/-- Queue-side idempotence: re-running `queue_alerts_keyed` on its own
output state with the same observation and time emits nothing. -/
theorem qa_idem (key th re : String) (m : EMap) (now : Int) (fu body : String)
    (h1 : th ≠ key) (h2 : re ≠ key) (h3 : re ≠ th) :
    (queue_alerts_keyed key th re (queue_alerts_keyed key th re m now fu body).2
      now fu body).1 = [] := by
  set c := (queue_alerts_keyed key th re m now fu body).2 with hc
  have hstat : getStatus c key = statusOf fu body :=
    qa_stored_status key th re m now fu body h1 h2
  rw [qa_keyed_noTransition_events key th re c now fu body hstat]
  by_cases hq : statusOf fu body = "QUEUE"
  · rw [if_pos hq]
    have hcth : ∃ M, c th = (qa_wait th M now body).2 th := by
      rw [hc]
      simp only [queue_alerts_keyed]
      rw [if_pos hq]
      dsimp only
      rw [qa_re_other _ _ _ _ (Ne.symm h3)]
      exact ⟨_, rfl⟩
    have hcre : ∃ M2, c re = (qa_re re M2 now).2 re := by
      rw [hc]
      simp only [queue_alerts_keyed]
      rw [if_pos hq]
      dsimp only
      exact ⟨_, rfl⟩
    obtain ⟨M, hM⟩ := hcth
    obtain ⟨M2, hM2⟩ := hcre
    have e1 : (qa_wait th (qa_m1 key c now fu (statusOf fu body)) now body).1 = [] := by
      apply qa_wait_events_of_prev th M _ now now body
      rw [qa_m1_other _ _ _ _ _ _ h1]
      exact hM
    have e2 : (qa_re re (qa_wait th (qa_m1 key c now fu (statusOf fu body)) now body).2 now).1
        = [] := by
      apply qa_re_events_of_prev re M2
      rw [qa_wait_other _ _ _ _ _ h3, qa_m1_other _ _ _ _ _ _ h2]
      exact hM2
    rw [e1, e2]
    rfl
  · rw [if_neg hq]

theorem setI_same (m : IMap) (k : String) (r : ItemRec) : setI m k r k = some r := by
  simp [setI]

theorem setI_other (m : IMap) (k k' : String) (r : ItemRec) (h : k' ≠ k) :
    setI m k r k' = m k' := by
  simp [setI, h]

theorem scan_item_frame (kw : List String) (now : Int) (pn pu : String)
    (acc : List Event × IMap) (it : XItem) (u : String) (h : stripStr it.url ≠ u) :
    (scan_item kw now pn pu acc it).2 u = acc.2 u := by
  simp only [scan_item]
  split_ifs <;> simp [setI, Ne.symm h]

theorem scan_foldl_frame (kw : List String) (now : Int) (pn pu : String) :
    ∀ (xs : List XItem) (acc : List Event × IMap) (u : String),
      (∀ it ∈ xs, stripStr it.url ≠ u) →
      (xs.foldl (scan_item kw now pn pu) acc).2 u = acc.2 u
  | [], _, _, _ => rfl
  | x :: rest, acc, u, h => by
      rw [List.foldl_cons,
        scan_foldl_frame kw now pn pu rest _ u (fun it hi => h it (List.mem_cons_of_mem _ hi)),
        scan_item_frame kw now pn pu acc x u (h x (List.mem_cons_self x rest))]

theorem scan_item_stock (kw : List String) (now : Int) (pn pu : String)
    (acc : List Event × IMap) (it : XItem)
    (hu : stripStr it.url ≠ "")
    (hkw : text_has_keywords kw (stripStr it.linkText ++ "\n" ++ stripStr it.containerText) = true) :
    ∃ r, (scan_item kw now pn pu acc it).2 (stripStr it.url) = some r ∧
      r.stock = infer_in_stock (stripStr it.linkText ++ "\n" ++ stripStr it.containerText) := by
  simp only [scan_item]
  rw [if_neg hu]
  simp only [hkw, Bool.not_true, Bool.false_eq_true, if_false]
  split_ifs <;> exact ⟨_, setI_same _ _ _, rfl⟩

theorem scan_stock_foldl (kw : List String) (now : Int) (pn pu : String) :
    ∀ (xs : List XItem) (acc : List Event × IMap),
      ((xs.map fun i => stripStr i.url).Nodup) →
      ∀ it ∈ xs, stripStr it.url ≠ "" →
      text_has_keywords kw (stripStr it.linkText ++ "\n" ++ stripStr it.containerText) = true →
      ∃ r, (xs.foldl (scan_item kw now pn pu) acc).2 (stripStr it.url) = some r ∧
        r.stock = infer_in_stock (stripStr it.linkText ++ "\n" ++ stripStr it.containerText)
  | [], _, _, it, hmem, _, _ => absurd hmem (List.not_mem_nil it)
  | x :: rest, acc, hnd, it, hmem, hu, hkw => by
      rw [List.foldl_cons]
      rcases List.mem_cons.mp hmem with rfl | hmem2
      · obtain ⟨r, hr, hs⟩ := scan_item_stock kw now pn pu acc it hu hkw
        refine ⟨r, ?_, hs⟩
        rw [scan_foldl_frame kw now pn pu rest _ _ ?_, hr]
        intro j hj
        have hne := (List.nodup_cons.mp hnd).1
        intro hjeq
        have hmm := List.mem_map_of_mem (fun i => stripStr i.url) hj
        exact hne (by simpa [hjeq] using hmm)
      · exact scan_stock_foldl kw now pn pu rest _ (List.nodup_cons.mp hnd).2 it hmem2 hu hkw

theorem scan_idem_foldl (kw : List String) (now : Int) (pn pu : String) :
    ∀ (xs : List XItem) (evs : List Event) (im : IMap),
      ((xs.map fun i => stripStr i.url).Nodup) →
      (∀ it ∈ xs, stripStr it.url ≠ "" →
        text_has_keywords kw (stripStr it.linkText ++ "\n" ++ stripStr it.containerText) = true →
        ∃ r, im (stripStr it.url) = some r ∧
          r.stock = infer_in_stock (stripStr it.linkText ++ "\n" ++ stripStr it.containerText)) →
      (xs.foldl (scan_item kw now pn pu) (evs, im)).1 = evs
  | [], _, _, _, _ => rfl
  | x :: rest, evs, im, hnd, hpre => by
      rw [List.foldl_cons]
      by_cases hu : stripStr x.url = ""
      · have hstep : scan_item kw now pn pu (evs, im) x = (evs, im) := by
          simp [scan_item, hu]
        rw [hstep]
        exact scan_idem_foldl kw now pn pu rest evs im (List.nodup_cons.mp hnd).2
          (fun it hi => hpre it (List.mem_cons_of_mem _ hi))
      · by_cases hkw : text_has_keywords kw
          (stripStr x.linkText ++ "\n" ++ stripStr x.containerText) = true
        · obtain ⟨r, hr, hs⟩ := hpre x (List.mem_cons_self x rest) hu hkw
          have hstep : scan_item kw now pn pu (evs, im) x =
              (evs, setI im (stripStr x.url)
                { sig := stable_key [takeStr (lowerStr (stripStr x.linkText)) 200,
                    takeStr (lowerStr (stripStr x.containerText)) 400],
                  title := takeStr (stripStr x.linkText) 200,
                  kind := product_kind (stripStr x.linkText ++ "\n" ++ stripStr x.containerText),
                  stock := infer_in_stock (stripStr x.linkText ++ "\n" ++ stripStr x.containerText),
                  last_seen_ts := now, source_page := pu, source_name := pn,
                  last_alert_ts := r.last_alert_ts }) := by
            simp only [scan_item]
            rw [if_neg hu]
            simp only [hkw, Bool.not_true, Bool.false_eq_true, if_false]
            rw [hr]
            have hfs : (some r).isNone = false := rfl
            simp only [hfs, Bool.false_eq_true, if_false, Option.map_some, Option.getD_some,
              Option.bind_some]
            rw [← hs]
            rcases hstock : r.stock with _ | b
            · simp [hstock]
            · cases b <;> simp [hstock]
          rw [hstep]
          apply scan_idem_foldl kw now pn pu rest evs _ (List.nodup_cons.mp hnd).2
          intro it hi hu2 hkw2
          have hne : stripStr it.url ≠ stripStr x.url := by
            have h1 := (List.nodup_cons.mp hnd).1
            intro heq
            have hmm := List.mem_map_of_mem (fun i => stripStr i.url) hi
            exact h1 (by simpa [heq] using hmm)
          rw [setI_other _ _ _ _ hne]
          exact hpre it (List.mem_cons_of_mem _ hi) hu2 hkw2
        · have hstep : scan_item kw now pn pu (evs, im) x = (evs, im) := by
            simp only [scan_item]
            rw [if_neg hu]
            simp [hkw]
          rw [hstep]
          exact scan_idem_foldl kw now pn pu rest evs im (List.nodup_cons.mp hnd).2
            (fun it hi => hpre it (List.mem_cons_of_mem _ hi))

theorem scan_foldl_noop (kw : List String) (now : Int) (pn pu : String) :
    ∀ (xs : List XItem) (evs : List Event) (im : IMap),
      (∀ it ∈ xs, text_has_keywords kw
        (stripStr it.linkText ++ "\n" ++ stripStr it.containerText) = false) →
      xs.foldl (scan_item kw now pn pu) (evs, im) = (evs, im)
  | [], _, _, _ => rfl
  | it :: rest, evs, im, h => by
      have hhead := h it (List.mem_cons_self it rest)
      have hstep : scan_item kw now pn pu (evs, im) it = (evs, im) := by
        by_cases hu : stripStr it.url = ""
        · simp [scan_item, hu]
        · simp [scan_item, hu, hhead]
      rw [List.foldl_cons, hstep]
      exact scan_foldl_noop kw now pn pu rest evs im
        (fun x hx => h x (List.mem_cons_of_mem _ hx))

theorem scanFirst_none {α : Type} (f : Nat → Option α) :
    ∀ (n i : Nat), (∀ j, j < n → f (i + j) = none) → scanFirst f i n = none
  | 0, _, _ => rfl
  | n + 1, i, h => by
      unfold scanFirst
      have h0 : f i = none := by simpa using h 0 (Nat.succ_pos n)
      rw [h0]
      exact scanFirst_none f n (i + 1) (fun j hj => by
        have hh := h (j + 1) (Nat.succ_lt_succ hj)
        have heq : i + (j + 1) = i + 1 + j := by omega
        rw [heq] at hh
        exact hh)

theorem scanFirst_some {α : Type} (f : Nat → Option α) :
    ∀ (n i k : Nat) (r : α), f (i + k) = some r → (∀ j, j < k → f (i + j) = none) →
      k < n → scanFirst f i n = some r
  | 0, _, k, _, _, _, hk => absurd hk (Nat.not_lt_zero k)
  | n + 1, i, k, r, hf, hmin, hk => by
      unfold scanFirst
      cases k with
      | zero =>
          have h0 : f i = some r := by simpa using hf
          rw [h0]
      | succ k' =>
          have h0 : f i = none := by simpa using hmin 0 (Nat.succ_pos k')
          rw [h0]
          apply scanFirst_some f n (i + 1) k' r
          · have heq : i + (k' + 1) = i + 1 + k' := by omega
            rw [← heq]
            exact hf
          · intro j hj
            have hh := hmin (j + 1) (Nat.succ_lt_succ hj)
            have heq : i + (j + 1) = i + 1 + j := by omega
            rw [heq] at hh
            exact hh
          · omega

theorem digitAt_oob (cs : List Char) (i : Nat) (h : cs.length ≤ i) : digitAt cs i = none := by
  simp [digitAt, List.getElem?_eq_none h]

theorem matchHMSAt_oob (cs : List Char) (i : Nat) (h : cs.length ≤ i) :
    matchHMSAt cs i = none := by
  have hd : digitAt cs i = none := digitAt_oob cs i h
  simp [matchHMSAt, twoDigitsAt, hd]

theorem matchMSAt_oob (cs : List Char) (i : Nat) (h : cs.length ≤ i) :
    matchMSAt cs i = none := by
  have hd : digitAt cs i = none := digitAt_oob cs i h
  simp [matchMSAt, twoDigitsAt, hd]

theorem matchHMSAt_lt (cs : List Char) (i : Nat) (r : Nat × Nat × Nat)
    (h : matchHMSAt cs i = some r) : i < cs.length := by
  by_contra hgt
  push_neg at hgt
  rw [matchHMSAt_oob cs i hgt] at h
  simp at h

theorem matchMSAt_lt (cs : List Char) (i : Nat) (r : Nat × Nat)
    (h : matchMSAt cs i = some r) : i < cs.length := by
  by_contra hgt
  push_neg at hgt
  rw [matchMSAt_oob cs i hgt] at h
  simp at h

/-- C1 counterexample: the two URLs that the claim says must resolve to the
same Entity Key in fact get distinct keys, because `stable_key` hashes the
raw URL without stripping the query string or fragment. -/
theorem C1_no_normalization_cex :
    stable_key ["queue", "https://site/x?utm=1"] ≠ stable_key ["queue", "https://site/x?utm=2#frag"] := by
  decide

/-- C1 amended: `stable_key` applies a truncated (16 hex chars) SHA-256 to
the raw joined parts with no URL normalization, so URLs differing only by
query string or fragment yield distinct keys, URLs differing in path yield
distinct keys, and item records are keyed by the raw URL string itself
(distinct raw strings, distinct records). -/
theorem C1_raw_hash_keys :
    stable_key ["queue", "https://site/x"] ≠ stable_key ["queue", "https://site/y"] ∧
    ("https://site/x?utm=1" : String) ≠ "https://site/x?utm=2#frag" ∧
    stable_key ["queue", "https://site/x?utm=1"] = "6afe543fe17a9b4c" ∧
    stable_key ["queue", "https://site/x?utm=2#frag"] = "96b044614e0ef4c9" := by
  refine ⟨by decide, by decide, by decide, by decide⟩

/-- C2 counterexample: a body matching both the block hints (`captcha`) and
the queue hints (`waiting room`) is classified and stored as `QUEUE`, not
`BLOCK`: line 297 tests the queue signal first. -/
theorem C2_block_precedence_cex :
    (detect_queue "u" "a captcha in the waiting room").1 = true ∧
    (detect_block "a captcha in the waiting room").1 = true ∧
    getStatus (queue_alerts emptyState.entries 1000 "SRC" "u" "u" "a captcha in the waiting room").2
      (stable_key ["queue", "u"]) = "QUEUE" := by
  refine ⟨by decide, by decide, ?_⟩
  simp only [queue_alerts, key_queue_u, key_waitth_u, key_queuere_u]
  decide

/-- C2 amended: for every observation whose URL/body text matches the queue
hint list, the stored status is `QUEUE` even when the block hint list also
matches: line 297 tests the queue signal first, so queue takes precedence
over block, contrary to the claimed block-over-queue precedence. -/
theorem C2_queue_precedence (m : EMap) (now : Int) (name url fu body : String)
    (hq : (detect_queue fu body).1 = true)
    (hb : (detect_block body).1 = true)
    (h1 : stable_key ["wait_th", url] ≠ stable_key ["queue", url])
    (h2 : stable_key ["queue_re", url] ≠ stable_key ["queue", url]) :
    getStatus (queue_alerts m now name url fu body).2 (stable_key ["queue", url]) = "QUEUE" := by
  unfold queue_alerts
  rw [qa_stored_status _ _ _ _ _ _ _ h1 h2]
  simp [statusOf, hq]

/-- C2 witness: concrete instantiation of `C2_queue_precedence`. -/
theorem C2_queue_precedence_witness :
    (detect_queue "u" "captcha waiting room both").1 = true ∧
    (detect_block "captcha waiting room both").1 = true ∧
    getStatus (queue_alerts emptyState.entries 5 "SRC" "u" "u" "captcha waiting room both").2
      (stable_key ["queue", "u"]) = "QUEUE" :=
  ⟨by decide, by decide,
    C2_queue_precedence emptyState.entries 5 "SRC" "u" "u" "captcha waiting room both"
      (by decide) (by decide)
      (by rw [key_waitth_u, key_queue_u]; decide)
      (by rw [key_queuere_u, key_queue_u]; decide)⟩

/-- C3 counterexample: after a `QUEUE DETECTED` emission at `t = 1000`, a
transition into `BLOCK` at `t = 1060` — the entity's first-ever BLOCK-kind
candidate, which the claimed per-kind clocks would emit — is suppressed,
because both kinds share the single `last_alert_ts` clock of the record
and `1060 - 1000 ≤ 1800`. -/
theorem C3_per_kind_clock_cex :
    (queue_alerts emptyState.entries 1000 "SRC" "u" "u" "waiting room").1 = [Event.queueDetected] ∧
    getStatus (queue_alerts (queue_alerts emptyState.entries 1000 "SRC" "u" "u" "waiting room").2
        1060 "SRC" "u" "u" "a captcha").2 (stable_key ["queue", "u"]) = "BLOCK" ∧
    (queue_alerts (queue_alerts emptyState.entries 1000 "SRC" "u" "u" "waiting room").2
        1060 "SRC" "u" "u" "a captcha").1 = [] := by
  simp only [queue_alerts, key_queue_u, key_waitth_u, key_queuere_u]
  refine ⟨by decide, by decide, by decide⟩

/-- C3 amended: the throttler keeps a single `last_alert_ts` clock per
entity record, shared by the QUEUE/BLOCK/CLEARED alert kinds (no per-kind
clocks): a candidate BLOCK event on a transition into BLOCK is emitted iff
`now` minus that shared clock exceeds `ERROR_RE_ALERT_SECONDS`, whichever
kind last updated the clock — so emitting one kind can suppress a
different kind for the same entity. -/
theorem C3_shared_cooldown_gate (m : EMap) (now : Int) (name url fu body : String)
    (hb : statusOf fu body = "BLOCK")
    (hprev : getStatus m (stable_key ["queue", url]) ≠ "BLOCK") :
    (queue_alerts m now name url fu body).1 =
      (if now - getLastAlert m (stable_key ["queue", url]) > ERROR_RE_ALERT_SECONDS
       then [Event.blockDetected] else []) := by
  unfold queue_alerts
  simp only [queue_alerts_keyed]
  rw [hb]
  have hne : ("BLOCK" : String) ≠ "QUEUE" := by decide
  rw [if_neg hne]
  unfold qa_transition
  have hsp : ("BLOCK" : String) ≠ getStatus m (stable_key ["queue", url]) := Ne.symm hprev
  rw [if_pos hsp, if_neg hne, if_pos rfl]
  simp only [should_realert, getLastAlert_qa_m1]
  by_cases hc : now - getLastAlert m (stable_key ["queue", url]) > ERROR_RE_ALERT_SECONDS
  · simp [hc]
  · simp [hc]

/-- C3 witness: concrete instantiation of `C3_shared_cooldown_gate` — the
BLOCK candidate 100 s after the shared clock was set is suppressed. -/
theorem C3_shared_cooldown_gate_witness :
    statusOf "u" "a captcha" = "BLOCK" ∧
    (queue_alerts mC3w 1100 "SRC" "u" "u" "a captcha").1 = [] := by
  refine ⟨by decide, ?_⟩
  have h := C3_shared_cooldown_gate mC3w 1100 "SRC" "u" "u" "a captcha" (by decide)
    (by rw [key_queue_u]; decide)
  rw [h, key_queue_u]
  decide

set_option maxRecDepth 4000 in
/-- C4 counterexample: the status sequence OK, QUEUE, BLOCK, OK (one
observation per cycle, 60 s apart) emits only `QUEUE_DETECTED` among the
transition kinds: `BLOCK_DETECTED` is *not* emitted on this transition into
BLOCK, because it is gated by the record's shared 30-minute cooldown which
the QUEUE alert started. -/
theorem C4_transition_events_cex :
    getStatus (runState emptyState.entries (obsC4close.take 1)) (stable_key ["queue", "u"]) = "OK" ∧
    getStatus (runState emptyState.entries (obsC4close.take 2)) (stable_key ["queue", "u"]) = "QUEUE" ∧
    getStatus (runState emptyState.entries (obsC4close.take 3)) (stable_key ["queue", "u"]) = "BLOCK" ∧
    getStatus (runState emptyState.entries obsC4close) (stable_key ["queue", "u"]) = "OK" ∧
    (runEvents emptyState.entries obsC4close).map (List.filter isQueueTransition) =
      [[], [Event.queueDetected], [], []] := by
  simp only [runEvents, runState, queue_alerts, key_queue_u, key_waitth_u, key_queuere_u, obsC4close]
  refine ⟨by decide, by decide, by decide, by decide, by decide⟩

/-- C4 amended: for the same OK, QUEUE, BLOCK, OK sequence with the
observations spaced beyond the 30-minute shared cooldown, the cycle events
restricted to the transition kinds are exactly `QUEUE_DETECTED` then
`BLOCK_DETECTED`, and `QUEUE_CLEARED` is never emitted (the final
transition to OK originates from BLOCK, not QUEUE). -/
theorem C4_spaced_transition_events :
    getStatus (runState emptyState.entries (obsC4far.take 1)) (stable_key ["queue", "u"]) = "OK" ∧
    getStatus (runState emptyState.entries (obsC4far.take 2)) (stable_key ["queue", "u"]) = "QUEUE" ∧
    getStatus (runState emptyState.entries (obsC4far.take 3)) (stable_key ["queue", "u"]) = "BLOCK" ∧
    getStatus (runState emptyState.entries obsC4far) (stable_key ["queue", "u"]) = "OK" ∧
    (runEvents emptyState.entries obsC4far).map (List.filter isQueueTransition) =
      [[], [Event.queueDetected], [Event.blockDetected], []] ∧
    (∀ evs ∈ runEvents emptyState.entries obsC4far, Event.queueCleared ∉ evs) := by
  simp only [runEvents, runState, queue_alerts, key_queue_u, key_waitth_u, key_queuere_u, obsC4far]
  refine ⟨by decide, by decide, by decide, by decide, by decide, by decide⟩

/-- C5 counterexample: prior availability `out_of_stock`, new observation
in stock with an add-to-cart hint, yet NO `RESTOCK` event is emitted (the
claim demands exactly one), because the item's shared alert cooldown
(`RESTOCK_COOLDOWN_SECONDS = 300`) has not yet expired. -/
theorem C5_cooldown_cex :
    (imC5cex "https://x/product/a").bind ItemRec.stock = some false ∧
    infer_in_stock (stripStr "Booster Box" ++ "\n" ++ stripStr "Add to cart") = some true ∧
    text_has_keywords KEYWORDS (stripStr "Booster Box" ++ "\n" ++ stripStr "Add to cart") = true ∧
    (scan_and_alert_intel KEYWORDS imC5cex 1000 "PN" "PU"
      [⟨"https://x/product/a", "Booster Box", "Add to cart"⟩]).1 = [] := by
  refine ⟨by decide, by decide, by decide, by decide⟩

/-- C5 amended: for a tracked item whose prior record is `out_of_stock`,
an observation that infers `in_stock` (e.g. an add-to-cart hint) emits
exactly one `RESTOCK` event and never `BUYABLE_NOW` — the RESTOCK branch
takes precedence and `continue`s — provided the item's shared per-item
cooldown (`RESTOCK_COOLDOWN_SECONDS`) has expired; otherwise no event at
all is emitted for the transition. -/
theorem C5_restock_precedence (kw : List String) (im : IMap) (now : Int) (pn pu : String)
    (it : XItem) (r : ItemRec)
    (hu : stripStr it.url ≠ "")
    (hkw : text_has_keywords kw (stripStr it.linkText ++ "\n" ++ stripStr it.containerText) = true)
    (hprev : im (stripStr it.url) = some r)
    (hstock : r.stock = some false)
    (hin : infer_in_stock (stripStr it.linkText ++ "\n" ++ stripStr it.containerText) = some true)
    (hcool : now - r.last_alert_ts > RESTOCK_COOLDOWN_SECONDS) :
    (scan_and_alert_intel kw im now pn pu [it]).1 = [Event.restock (stripStr it.url)] := by
  unfold scan_and_alert_intel
  simp only [List.foldl_cons, List.foldl_nil]
  simp [scan_item, hu, hkw, hprev, hstock, hin, hcool]

/-- C5 witness: concrete instantiation of `C5_restock_precedence`. -/
theorem C5_restock_precedence_witness :
    (imC5w "https://x/product/a").bind ItemRec.stock = some false ∧
    (scan_and_alert_intel KEYWORDS imC5w 1000 "PN" "PU"
      [⟨"https://x/product/a", "Booster Box", "Add to cart"⟩]).1 =
      [Event.restock (stripStr "https://x/product/a")] :=
  ⟨by decide,
    C5_restock_precedence KEYWORDS imC5w 1000 "PN" "PU"
      ⟨"https://x/product/a", "Booster Box", "Add to cart"⟩
      { sig := "", title := "", kind := "", stock := some false, last_seen_ts := 0,
        source_page := "", source_name := "", last_alert_ts := 0 }
      (by decide) (by decide) (by decide) (by decide) (by decide) (by decide)⟩

set_option maxRecDepth 4000 in

set_option maxRecDepth 4000 in
/-- C6: with thresholds `[6,3,1]` and an initially empty crossed set, the
queued wait-time sequence 7.0h, 4.0h, 2.0h, 0.5h emits exactly three
`WAIT_THRESHOLD` events in the order 6, 3, 1, and a later increase back to
5.0h emits nothing and leaves `"6"` in the persisted crossed set. -/
theorem C6_threshold_monotonicity :
    (runEvents emptyState.entries obsC6).map (List.filter isWaitEvent) =
      [[], [Event.waitThreshold 6], [Event.waitThreshold 3], [Event.waitThreshold 1], []] ∧
    "6" ∈ ((runState emptyState.entries obsC6 (stable_key ["wait_th", "u"])).bind Entry.passed).getD [] := by
  simp only [runEvents, runState, queue_alerts, key_queue_u, key_waitth_u, key_queuere_u, obsC6]
  refine ⟨by decide, by decide⟩

/-- C7: change detection is idempotent on re-observation — processing the
same observation (same resolved URL, body text and extracted items, with
pairwise distinct item URLs as the extractor guarantees) twice at the same
time, with the second call running on the state produced by the first,
emits zero events of every kind on the second call.  The `stable_key`
inequations state that the three per-target hash keys do not collide
(checked concretely in the witness). -/
theorem C7_idempotent_reobservation (kw : List String) (s : St) (now : Int)
    (name url fu body : String) (xs : List XItem)
    (hnd : (xs.map fun i => stripStr i.url).Nodup)
    (h1 : stable_key ["wait_th", url] ≠ stable_key ["queue", url])
    (h2 : stable_key ["queue_re", url] ≠ stable_key ["queue", url])
    (h3 : stable_key ["queue_re", url] ≠ stable_key ["wait_th", url]) :
    (process_target kw (process_target kw s now name url fu body xs).2
      now name url fu body xs).1 = [] := by
  unfold process_target queue_alerts
  dsimp only
  rw [qa_idem _ _ _ _ _ _ _ h1 h2 h3]
  have hscan : (scan_and_alert_intel kw
      (scan_and_alert_intel kw s.items now name url xs).2 now name url xs).1 = [] := by
    unfold scan_and_alert_intel
    apply scan_idem_foldl kw now name url xs [] _ hnd
    intro it hi hu hkw
    exact scan_stock_foldl kw now name url xs ([], s.items) hnd it hi hu hkw
  rw [hscan]
  rfl

/-- C7 witness: concrete instantiation of `C7_idempotent_reobservation`,
with the three hash-key inequations checked on the computed digests. -/
theorem C7_idempotent_reobservation_witness :
    ((([⟨"https://x/product/a", "Booster Box", "Add to cart"⟩] : List XItem).map
      fun i => stripStr i.url).Nodup) ∧
    (process_target KEYWORDS
      (process_target KEYWORDS emptyState 10000 "SRC" "u" "u" "waiting room 0:30:00"
        [⟨"https://x/product/a", "Booster Box", "Add to cart"⟩]).2
      10000 "SRC" "u" "u" "waiting room 0:30:00"
      [⟨"https://x/product/a", "Booster Box", "Add to cart"⟩]).1 = [] :=
  ⟨by decide,
    C7_idempotent_reobservation KEYWORDS emptyState 10000 "SRC" "u" "u" "waiting room 0:30:00"
      [⟨"https://x/product/a", "Booster Box", "Add to cart"⟩]
      (by decide)
      (by rw [key_waitth_u, key_queue_u]; decide)
      (by rw [key_queuere_u, key_queue_u]; decide)
      (by rw [key_queuere_u, key_waitth_u]; decide)⟩

/-- C8: wait-time parsing returns the value of the first `H:MM:SS` or
`HH:MM:SS` token (position-least match of the anchored matcher) converted
to seconds when one exists; an `MM:SS` token is consulted only when no
`H:MM:SS` token matches anywhere in the normalized text and is read as
minutes:seconds; and when neither token form matches anywhere the result
is `none`. -/
theorem C8_wait_time_parsing (t : String) :
    (∀ i r, matchHMSAt (normalizeWS t) i = some r →
      (∀ j, j < i → matchHMSAt (normalizeWS t) j = none) →
      parse_wait_time_seconds t = some (r.1 * 3600 + r.2.1 * 60 + r.2.2)) ∧
    ((∀ i, i < (normalizeWS t).length → matchHMSAt (normalizeWS t) i = none) →
      ∀ i r, matchMSAt (normalizeWS t) i = some r →
      (∀ j, j < i → matchMSAt (normalizeWS t) j = none) →
      parse_wait_time_seconds t = some (r.1 * 60 + r.2)) ∧
    ((∀ i, i < (normalizeWS t).length → matchHMSAt (normalizeWS t) i = none) →
     (∀ i, i < (normalizeWS t).length → matchMSAt (normalizeWS t) i = none) →
      parse_wait_time_seconds t = none) := by
  have hHnone : (∀ i, i < (normalizeWS t).length → matchHMSAt (normalizeWS t) i = none) →
      scanFirst (matchHMSAt (normalizeWS t)) 0 ((normalizeWS t).length + 1) = none := by
    intro hH
    apply scanFirst_none
    intro j hj
    rcases Nat.lt_or_ge j (normalizeWS t).length with h | h
    · simpa using hH j h
    · have := matchHMSAt_oob (normalizeWS t) j h
      simpa using this
  refine ⟨?_, ?_, ?_⟩
  · intro i r hm hmin
    obtain ⟨r1, r2, r3⟩ := r
    have hlt : i < (normalizeWS t).length := matchHMSAt_lt _ _ _ hm
    have hscan : scanFirst (matchHMSAt (normalizeWS t)) 0 ((normalizeWS t).length + 1)
        = some (r1, r2, r3) :=
      scanFirst_some _ _ 0 i _ (by simpa using hm) (fun j hj => by simpa using hmin j hj)
        (by omega)
    simp only [parse_wait_time_seconds]
    rw [hscan]
  · intro hH i r hm hmin
    obtain ⟨r1, r2⟩ := r
    have hlt : i < (normalizeWS t).length := matchMSAt_lt _ _ _ hm
    have hscan : scanFirst (matchMSAt (normalizeWS t)) 0 ((normalizeWS t).length + 1)
        = some (r1, r2) :=
      scanFirst_some _ _ 0 i _ (by simpa using hm) (fun j hj => by simpa using hmin j hj)
        (by omega)
    simp only [parse_wait_time_seconds]
    rw [hHnone hH, hscan]
  · intro hH hM
    have hMnone : scanFirst (matchMSAt (normalizeWS t)) 0 ((normalizeWS t).length + 1)
        = none := by
      apply scanFirst_none
      intro j hj
      rcases Nat.lt_or_ge j (normalizeWS t).length with h | h
      · simpa using hM j h
      · have := matchMSAt_oob (normalizeWS t) j h
        simpa using this
    simp only [parse_wait_time_seconds]
    rw [hHnone hH, hMnone]

/-- C8 witness: concrete instantiation of `C8_wait_time_parsing` — the
`H:MM:SS` token wins even though an `MM:SS` token occurs earlier. -/
theorem C8_wait_time_parsing_witness :
    parse_wait_time_seconds "foo 9:59 and 1:02:03" = some 3723 := by
  have h := (C8_wait_time_parsing "foo 9:59 and 1:02:03").1 13 (1, 2, 3) (by decide) (by decide)
  simpa using h

/-- C9: loading a persisted state that is unreadable or corrupt (any read
or decode failure) yields the empty store rather than an error, in which
every queue entry reads as status `UNKNOWN` and every item lookup is
absent, so each entity looks brand new for one run. -/
theorem C9_load_state_recovery (e : String) (k u : String) :
    load_state (Except.error e) = emptyState ∧
    getStatus (load_state (Except.error e)).entries k = "UNKNOWN" ∧
    (load_state (Except.error e)).items u = none := ⟨rfl, rfl, rfl⟩

/-- C10: an extracted item whose link text and container text contain none
of the configured keywords produces no alert of any kind and leaves the
persisted items state entirely unchanged (no record created or updated for
its URL), so it would still count as brand new under a later keyword set. -/
theorem C10_irrelevant_items_noop (kw : List String) (im : IMap) (now : Int)
    (pn pu : String) (xs : List XItem)
    (h : ∀ it ∈ xs, text_has_keywords kw
      (stripStr it.linkText ++ "\n" ++ stripStr it.containerText) = false) :
    scan_and_alert_intel kw im now pn pu xs = ([], im) := by
  unfold scan_and_alert_intel
  exact scan_foldl_noop kw now pn pu xs [] im h

/-- C10 witness: concrete instantiation of `C10_irrelevant_items_noop`. -/
theorem C10_irrelevant_items_noop_witness :
    (∀ it ∈ [(⟨"https://x/product/a", "Funko Pop", "figure"⟩ : XItem)],
      text_has_keywords KEYWORDS
        (stripStr it.linkText ++ "\n" ++ stripStr it.containerText) = false) ∧
    scan_and_alert_intel KEYWORDS (fun _ => none) 1000 "PN" "PU"
      [⟨"https://x/product/a", "Funko Pop", "figure"⟩] = ([], fun _ => none) :=
  ⟨by decide, C10_irrelevant_items_noop KEYWORDS (fun _ => none) 1000 "PN" "PU" _ (by decide)⟩
